import Mathlib

/-!
# Cloud-Attack-Surface-Detector: verification of the skyscan core

A shallow embedding, in Lean 4, of the candidate-generation and
verification core of the `skyscan` Go code base, together with proofs
about it:

* the CIDR-attribution radix trie (`pkg/netmapper`): `IPTrie.Insert`,
  `IPTrie.Lookup`, `NetMapper.Lookup`, `NetMapper.LoadFromDirectory`;
* the stealth DNS resolver cache (`pkg/net`): `DNSResolver.CheckExists`;
* the mutation engine (`pkg/permute`): `LearnFromDiscovery`,
  `GenerateAdvanced`, `uniqueStrings`;
* the object-storage providers (`pkg/providers/aws`, `pkg/providers/azure`):
  `S3ProviderV2.Check`, `AzureBlobProviderV2.Check`;
* the catalog enumerator (`pkg/providers`): `CloudAssetEnumerator.CheckTarget`;
* the orchestration engines (`pkg/engine`): the `checked`/`found`
  statistics discipline and the catalog-phase keyword slicing.

Go maps used only as memo tables are modelled as association lists;
network and XML-parsing effects are modelled as explicit oracle
functions passed in, with the number of HTTP operations issued returned
alongside each result.  Go `int`/`int64` counters are modelled as `Nat`
(the counters are only ever incremented by one and never approach the
word size within a run).
-/

namespace Skyscan

/-! ## CIDR attribution index (`pkg/netmapper`, `netmapper.go`) -/

/-- Metadata about a cloud IP range (`netmapper.CloudInfo`). -/
structure CloudInfo where
  provider : String
  service : String
  region : String
  networkType : String
  cidr : String
deriving DecidableEq, Repr

/-- One node of the binary radix trie (`netmapper.TrieNode`): two optional
children (index 0 / index 1, here `false` / `true`) and optional metadata. -/
inductive TrieNode where
  | node (info : Option CloudInfo) (child0 : Option TrieNode) (child1 : Option TrieNode)

/-- The child of a node selected by one address bit (`node.children[bit]`). -/
def TrieNode.child : TrieNode → Bool → Option TrieNode
  | .node _ c0 c1, b => if b then c1 else c0

/-- The metadata stored at a node (`node.info`). -/
def TrieNode.infoOf : TrieNode → Option CloudInfo
  | .node i _ _ => i

/-- A freshly allocated node (`&TrieNode{}`). -/
def TrieNode.empty : TrieNode := .node none none none

/-- First-some choice on options; used to state lookup results
(`if x != nil { return x }` chains in the Go code). -/
def oor {α : Type} : Option α → Option α → Option α
  | some x, _ => some x
  | none, b => b

/-- The bit walk of `IPTrie.Insert`: follow the prefix bits, creating
nodes as needed, and store `info` at the terminal node. -/
def insertBits : List Bool → CloudInfo → TrieNode → TrieNode
  | [], info, .node _ c0 c1 => .node (some info) c0 c1
  | b :: rest, info, .node i c0 c1 =>
    let c := (if b then c1 else c0).getD TrieNode.empty
    let c' := insertBits rest info c
    if b then .node i c0 (some c') else .node i (some c') c1

/-- The bit walk of `IPTrie.Lookup`: walk the address bits, remembering the
deepest metadata seen (`lastMatch`), stop at a missing child, and also
consult the final node (`// Check final node`). -/
def lookupBits : List Bool → TrieNode → Option CloudInfo → Option CloudInfo
  | [], n, last => oor n.infoOf last
  | b :: rest, n, last =>
    match n.child b with
    | none => oor n.infoOf last
    | some c => lookupBits rest c (oor n.infoOf last)

/-- The metadata stored at an exact bit path, `none` when the path does not
exist in the trie; the specification-side view of trie contents. -/
def stored : List Bool → TrieNode → Option CloudInfo
  | [], n => n.infoOf
  | b :: rest, n =>
    match n.child b with
    | none => none
    | some c => stored rest c

/-- All prefixes of a bit string, longest first. -/
def prefixesDesc : List Bool → List (List Bool)
  | [] => [[]]
  | b :: rest => (prefixesDesc rest).map (b :: ·) ++ [[]]

/-! ### Byte/bit plumbing and address parsing

`ipToBits` in the Go code exposes an IPv4 address as its 4 bytes; inside
the loops the `i`-th address bit is `(bits[i/8] >> (7 - i%8)) & 1`, i.e.
the bits of each byte, most significant first. -/

/-- The eight bits of one byte, most significant first. -/
def byteBits (b : Nat) : List Bool :=
  [b.testBit 7, b.testBit 6, b.testBit 5, b.testBit 4,
   b.testBit 3, b.testBit 2, b.testBit 1, b.testBit 0]

/-- The bit string of a byte sequence, in the Go loop's order. -/
def bytesToBits (bs : List Nat) : List Bool := (bs.map byteBits).flatten

/-- Split a character list at every occurrence of a separator character,
keeping empty segments — the semantics of Go's `strings.Split` for a
one-character separator. -/
def splitChar (sep : Char) : List Char → List (List Char)
  | [] => [[]]
  | c :: rest =>
    let r := splitChar sep rest
    if c = sep then [] :: r
    else match r with
      | [] => [[c]]
      | h :: t => (c :: h) :: t

/-- Decimal parse of an ASCII digit string with the restrictions of Go's
`net` parser: nonempty, digits only, no leading zero (except `"0"`). -/
def parseDecimalChars (cs : List Char) : Option Nat :=
  if cs = [] then none
  else if !cs.all Char.isDigit then none
  else if cs.head? = some '0' ∧ cs.length > 1 then none
  else some (cs.foldl (fun acc c => acc * 10 + (c.toNat - '0'.toNat)) 0)

/-- `net.ParseIP` on a character list, restricted to the IPv4 dotted-quad
form used by every claim under verification: four decimal octets `0..255`
separated by dots (Go rejects leading zeros).  The IPv6 textual forms
accepted by `net.ParseIP` are not needed by any claim and are not
modelled; this parser answers `none` on them, and every theorem below
that mentions parsing carries the parse result as an explicit hypothesis
or uses inputs on which both parsers agree. -/
def parseIPv4Core (cs : List Char) : Option (List Nat) :=
  match splitChar '.' cs with
  | [a, b, c, d] => do
    let a' ← parseDecimalChars a
    let b' ← parseDecimalChars b
    let c' ← parseDecimalChars c
    let d' ← parseDecimalChars d
    if a' ≤ 255 ∧ b' ≤ 255 ∧ c' ≤ 255 ∧ d' ≤ 255 then
      some [a', b', c', d']
    else none
  | _ => none

/-- `net.ParseIP` (IPv4 case) on a string. -/
def parseIPv4 (s : String) : Option (List Nat) := parseIPv4Core s.toList

/-- `net.ParseCIDR`, restricted to IPv4 (`a.b.c.d/n`): the address bytes and
the prefix length `n ≤ 32`.  `Insert` only consumes the first `n` bits, so
the host-bit masking Go performs on `ipnet.IP` is immaterial here. -/
def parseCIDR (s : String) : Option (List Nat × Nat) :=
  match splitChar '/' s.toList with
  | [ipCs, onesCs] => do
    let bytes ← parseIPv4Core ipCs
    let ones ← parseDecimalChars onesCs
    if ones ≤ 32 then some (bytes, ones) else none
  | _ => none

/-! ### `IPTrie` and `NetMapper` -/

/-- `netmapper.IPTrie`: a root node and an insertion counter. -/
structure IPTrie where
  root : TrieNode
  count : Nat

/-- `netmapper.NewIPTrie`. -/
def NewIPTrie : IPTrie := ⟨TrieNode.empty, 0⟩

/-- `IPTrie.Insert`: a malformed CIDR makes `net.ParseCIDR` fail and the
method returns immediately; otherwise the first `ones` address bits are
walked and the metadata stored, and the counter is incremented. -/
def IPTrie.Insert (t : IPTrie) (cidr : String) (info : CloudInfo) : IPTrie :=
  match parseCIDR cidr with
  | none => t
  | some (bytes, ones) =>
    { root := insertBits ((bytesToBits bytes).take ones) info t.root,
      count := t.count + 1 }

/-- `IPTrie.Lookup` on an (already normalized) IPv4 address given as its
four bytes: the Go method's `To16`/`To4` normalization dance reduces an
IPv4 address to exactly these four bytes before the bit walk. -/
def IPTrie.Lookup (t : IPTrie) (ip : List Nat) : Option CloudInfo :=
  lookupBits (bytesToBits ip) t.root none

/-- `netmapper.NetMapper`: one independent trie per provider. -/
structure NetMapper where
  aws : IPTrie
  azure : IPTrie
  gcp : IPTrie

/-- `netmapper.NewNetMapper`. -/
def NewNetMapper : NetMapper := ⟨NewIPTrie, NewIPTrie, NewIPTrie⟩

/-- `NetMapper.Lookup`: parse the IP string, then consult the AWS trie,
then Azure, then GCP, returning the first hit. -/
def NetMapper.Lookup (m : NetMapper) (ipStr : String) : Option CloudInfo :=
  match parseIPv4 ipStr with
  | none => none
  | some ip => oor (m.aws.Lookup ip) (oor (m.azure.Lookup ip) (m.gcp.Lookup ip))

/-- Load one provider's dataset into its trie.  A dataset is the list of
`(cidr, metadata)` pairs extracted from the provider's JSON file; `none`
models a missing or malformed file (`os.ReadFile` / `json.Unmarshal`
failure), in which case `loadAWS`/`loadAzure`/`loadGCP` returns early and
`LoadFromDirectory` merely logs the error. -/
def loadProvider (dataset : Option (List (String × CloudInfo))) (t : IPTrie) : IPTrie :=
  match dataset with
  | none => t
  | some entries => entries.foldl (fun t e => t.Insert e.1 e.2) t

/-- `NetMapper.LoadFromDirectory`: load the three datasets; per-provider
failures are logged and skipped and the method always returns `nil`
(here `.ok`). -/
def NetMapper.LoadFromDirectory
    (awsData azureData gcpData : Option (List (String × CloudInfo))) :
    Except String NetMapper :=
  .ok { aws := loadProvider awsData NewIPTrie,
        azure := loadProvider azureData NewIPTrie,
        gcp := loadProvider gcpData NewIPTrie }

/-- Building one trie from a list of entries, as the loaders do. -/
def buildTrie (entries : List (String × CloudInfo)) : IPTrie :=
  entries.foldl (fun t e => t.Insert e.1 e.2) NewIPTrie

/-- The bit path an entry occupies in the trie (the first `ones` bits of
its network address), `none` when its CIDR string is malformed (and the
entry is therefore skipped by `Insert`). -/
def entryPath (e : String × CloudInfo) : Option (List Bool) :=
  (parseCIDR e.1).map (fun p => (bytesToBits p.1).take p.2)

/-- Whether an entry's CIDR covers the given address bits. -/
def coversB (e : String × CloudInfo) (ipBits : List Bool) : Bool :=
  match entryPath e with
  | none => false
  | some p => p.isPrefixOf ipBits

/-! ### Trie correctness lemmas -/

@[simp] theorem oor_some {α : Type} (x : α) (b : Option α) : oor (some x) b = some x := rfl

@[simp] theorem oor_none {α : Type} (b : Option α) : oor none b = b := rfl

theorem oor_assoc {α : Type} (a b c : Option α) : oor (oor a b) c = oor a (oor b c) := by
  cases a <;> rfl

@[simp] theorem oor_none_right {α : Type} (a : Option α) : oor a none = a := by
  cases a <;> rfl

/-- First-defined choice along a list of candidate paths; the shape of a
longest-first search through the trie's stored entries. -/
def firstSome (f : List Bool → Option CloudInfo) : List (List Bool) → Option CloudInfo
  | [] => none
  | q :: rest => oor (f q) (firstSome f rest)

theorem firstSome_append (f : List Bool → Option CloudInfo) (l1 l2 : List (List Bool)) :
    firstSome f (l1 ++ l2) = oor (firstSome f l1) (firstSome f l2) := by
  induction l1 with
  | nil => rfl
  | cons q rest ih => simp [firstSome, ih, oor_assoc]

theorem firstSome_map (f : List Bool → Option CloudInfo) (g : List Bool → List Bool)
    (l : List (List Bool)) : firstSome f (l.map g) = firstSome (fun q => f (g q)) l := by
  induction l with
  | nil => rfl
  | cons q rest ih => simp [firstSome, ih]

theorem firstSome_none (f : List Bool → Option CloudInfo) (l : List (List Bool))
    (h : ∀ q ∈ l, f q = none) : firstSome f l = none := by
  induction l with
  | nil => rfl
  | cons q rest ih =>
    simp only [firstSome, h q (by simp)]
    exact ih fun q hq => h q (by simp [hq])

theorem stored_empty (q : List Bool) : stored q TrieNode.empty = none := by
  cases q <;> simp [stored, TrieNode.empty, TrieNode.infoOf, TrieNode.child]

theorem lookupBits_empty (bits : List Bool) (last : Option CloudInfo) :
    lookupBits bits TrieNode.empty last = last := by
  cases bits <;> simp [lookupBits, TrieNode.empty, TrieNode.infoOf, TrieNode.child, oor]

/-- `IPTrie.Lookup` is the longest-first search for stored metadata over
all prefixes of the address bits: it returns the metadata at the deepest
stored path along the address. -/
theorem lookupBits_eq_firstSome :
    ∀ (bits : List Bool) (n : TrieNode) (last : Option CloudInfo),
      lookupBits bits n last = oor (firstSome (fun q => stored q n) (prefixesDesc bits)) last := by
  intro bits
  induction bits with
  | nil =>
    intro n last
    cases hi : n.infoOf <;> simp [lookupBits, prefixesDesc, firstSome, stored, hi]
  | cons b rest ih =>
    intro n last
    simp only [prefixesDesc, firstSome_append, firstSome_map]
    have hsing : firstSome (fun q => stored q n) [[]] = oor (stored [] n) none := rfl
    rw [hsing]
    simp only [lookupBits]
    cases hc : n.child b with
    | none =>
      have hall : ∀ q ∈ prefixesDesc rest, stored (b :: q) n = none := by
        intro q _
        simp [stored, hc]
      rw [firstSome_none _ _ hall]
      show oor n.infoOf last = _
      cases hi : n.infoOf <;> simp [stored, hi]
    | some c =>
      have hfun : (fun q => stored (b :: q) n) = fun q => stored q c := by
        funext q
        simp [stored, hc]
      rw [hfun]
      show lookupBits rest c (oor n.infoOf last) = _
      rw [ih c (oor n.infoOf last)]
      simp only [oor_assoc, oor_none_right]
      have hst : stored [] n = n.infoOf := rfl
      rw [hst]

/-- Inserting along path `p` stores the metadata exactly at `p` and leaves
every other stored path unchanged. -/
theorem stored_insertBits :
    ∀ (p : List Bool) (i : CloudInfo) (n : TrieNode) (q : List Bool),
      stored q (insertBits p i n) = if q = p then some i else stored q n := by
  intro p
  induction p with
  | nil =>
    intro i n q
    cases n with
    | node j c0 c1 =>
      cases q with
      | nil => simp [insertBits, stored, TrieNode.infoOf]
      | cons b r => simp [insertBits, stored, TrieNode.child]
  | cons a p' ih =>
    intro i n q
    cases n with
    | node j c0 c1 =>
      cases q with
      | nil => cases a <;> simp [insertBits, stored, TrieNode.infoOf]
      | cons b r =>
        by_cases hab : b = a
        · subst hab
          cases b
          · simp only [insertBits, stored, TrieNode.child]
            simp only [Bool.false_eq_true, if_false, List.cons.injEq, true_and]
            rw [ih]
            cases c0 with
            | none => simp [stored_empty]
            | some c => simp [stored, TrieNode.child]
          · simp only [insertBits, stored, TrieNode.child]
            simp only [if_true, List.cons.injEq, true_and]
            rw [ih]
            cases c1 with
            | none => simp [stored_empty]
            | some c => simp [stored, TrieNode.child]
        · have hne : (b :: r) ≠ (a :: p') := by simp [hab]
          rw [if_neg hne]
          cases a <;> cases b <;> simp_all [insertBits, stored, TrieNode.child]

/-- One step of the insertion-order view of trie contents: the effect one
dataset entry has on the metadata stored at path `q`. -/
def updAcc (q : List Bool) (acc : Option CloudInfo) (e : String × CloudInfo) :
    Option CloudInfo :=
  match entryPath e with
  | some p => if p = q then some e.2 else acc
  | none => acc

theorem stored_Insert (t : IPTrie) (cidr : String) (info : CloudInfo) (q : List Bool) :
    stored q (t.Insert cidr info).root
      = match (parseCIDR cidr).map (fun p => (bytesToBits p.1).take p.2) with
        | some p => if p = q then some info else stored q t.root
        | none => stored q t.root := by
  unfold IPTrie.Insert
  cases hp : parseCIDR cidr with
  | none => simp
  | some p =>
    cases p with
    | mk bytes ones =>
      show stored q (insertBits ((bytesToBits bytes).take ones) info t.root)
        = if (bytesToBits bytes).take ones = q then some info else stored q t.root
      rw [stored_insertBits]
      by_cases hq : q = (bytesToBits bytes).take ones
      · simp [hq]
      · rw [if_neg hq, if_neg (Ne.symm hq)]

theorem stored_foldl_insert :
    ∀ (entries : List (String × CloudInfo)) (t : IPTrie) (q : List Bool),
      stored q (entries.foldl (fun t e => t.Insert e.1 e.2) t).root
        = entries.foldl (updAcc q) (stored q t.root) := by
  intro entries
  induction entries with
  | nil => intro t q; rfl
  | cons e es ih =>
    intro t q
    simp only [List.foldl_cons]
    rw [ih]
    congr 1
    rw [stored_Insert]
    simp only [updAcc, entryPath]

theorem stored_buildTrie (entries : List (String × CloudInfo)) (q : List Bool) :
    stored q (buildTrie entries).root = entries.foldl (updAcc q) none := by
  have h := stored_foldl_insert entries NewIPTrie q
  rwa [show stored q NewIPTrie.root = none from stored_empty q] at h

theorem foldl_updAcc_no_match (q : List Bool) :
    ∀ (entries : List (String × CloudInfo)) (acc : Option CloudInfo),
      (∀ e ∈ entries, entryPath e ≠ some q) →
      entries.foldl (updAcc q) acc = acc := by
  intro entries
  induction entries with
  | nil => intro acc _; rfl
  | cons e es ih =>
    intro acc h
    simp only [List.foldl_cons]
    have he : updAcc q acc e = acc := by
      simp only [updAcc]
      cases hp : entryPath e with
      | none => rfl
      | some p =>
        have : p ≠ q := fun hpq => h e (by simp) (by rw [hp, hpq])
        simp [this]
    rw [he]
    exact ih acc fun e' he' => h e' (by simp [he'])

theorem foldl_updAcc_unique_match (q : List Bool) (v : CloudInfo) :
    ∀ (entries : List (String × CloudInfo)) (acc : Option CloudInfo),
      (∃ e ∈ entries, entryPath e = some q ∧ e.2 = v) →
      (∀ e ∈ entries, entryPath e = some q → e.2 = v) →
      entries.foldl (updAcc q) acc = some v := by
  intro entries
  induction entries with
  | nil => intro acc hex _; simp at hex
  | cons e es ih =>
    intro acc hex hall
    simp only [List.foldl_cons]
    by_cases hme : ∃ e' ∈ es, entryPath e' = some q ∧ e'.2 = v
    · exact ih _ hme fun e' he' => hall e' (by simp [he'])
    · -- the head entry must be the (unique) match, and no later entry matches
      obtain ⟨e0, he0, hpath0, hv0⟩ := hex
      have he0head : e0 = e ∧ entryPath e = some q := by
        rcases List.mem_cons.mp he0 with h | h
        · exact ⟨h, h ▸ hpath0⟩
        · exact absurd ⟨e0, h, hpath0, hv0⟩ hme
      have hupd : updAcc q acc e = some v := by
        simp [updAcc, he0head.2, ← he0head.1 ▸ hv0]
      rw [hupd]
      apply foldl_updAcc_no_match
      intro e' he' hpe'
      exact hme ⟨e', he', hpe', hall e' (by simp [he']) hpe'⟩

theorem mem_prefixesDesc {q bits : List Bool} (h : q ∈ prefixesDesc bits) : q <+: bits := by
  induction bits generalizing q with
  | nil =>
    simp only [prefixesDesc, List.mem_singleton] at h
    simp [h]
  | cons b rest ih =>
    simp only [prefixesDesc, List.mem_append, List.mem_map, List.mem_singleton] at h
    rcases h with ⟨q0, hq0, rfl⟩ | rfl
    · obtain ⟨t, ht⟩ := ih hq0
      exact ⟨t, by simp [ht]⟩
    · exact List.nil_prefix

/-- Any prefix `p` of the address bits splits the longest-first prefix
list into strictly longer prefixes, `p` itself, and the rest. -/
theorem prefixesDesc_split {p bits : List Bool} (h : p <+: bits) :
    ∃ l1 l2, prefixesDesc bits = l1 ++ p :: l2 ∧ ∀ q ∈ l1, p.length < q.length := by
  induction p generalizing bits with
  | nil =>
    cases bits with
    | nil => exact ⟨[], [], rfl, by simp⟩
    | cons b rest =>
      refine ⟨(prefixesDesc rest).map (b :: ·), [], rfl, ?_⟩
      intro q hq
      obtain ⟨q0, _, rfl⟩ := List.mem_map.mp hq
      simp
  | cons a p' ih =>
    cases bits with
    | nil => exact absurd (List.prefix_nil.mp h) (by simp)
    | cons b rest =>
      obtain ⟨rfl, h'⟩ : a = b ∧ p' <+: rest := by
        obtain ⟨t, ht⟩ := h
        injection ht with h1 h2
        exact ⟨h1, t, h2⟩
      obtain ⟨l1, l2, heq, hlen⟩ := ih h'
      refine ⟨l1.map (a :: ·), (l2.map (a :: ·)) ++ [[]], ?_, ?_⟩
      · simp only [prefixesDesc, heq]
        simp [List.map_append]
      · intro q hq
        obtain ⟨q0, hq0, rfl⟩ := List.mem_map.mp hq
        simpa using Nat.succ_lt_succ (hlen q0 hq0)

/-- The number of bits of an entry's trie path (its CIDR prefix length,
clipped to the address width), `0` for malformed entries. -/
def pathLen (e : String × CloudInfo) : Nat := ((entryPath e).getD []).length

/-- **C1**: for every set of CIDR entries inserted into an attribution
trie — including overlapping prefixes with different metadata — `Lookup`
of an IP covered by several of them returns the metadata of the most
specific (longest) matching prefix, and returns `none` when no inserted
prefix covers the IP. -/
theorem trie_longest_match (entries : List (String × CloudInfo)) (ip : List Nat) :
    ((∀ e ∈ entries, coversB e (bytesToBits ip) = false) →
      (buildTrie entries).Lookup ip = none)
    ∧ (∀ e ∈ entries, ∀ p, entryPath e = some p →
        p.isPrefixOf (bytesToBits ip) = true →
        (∀ e' ∈ entries, e' ≠ e → coversB e' (bytesToBits ip) = true →
          pathLen e' < p.length) →
        (buildTrie entries).Lookup ip = some e.2) := by
  constructor
  · intro h
    show lookupBits (bytesToBits ip) (buildTrie entries).root none = none
    rw [lookupBits_eq_firstSome, oor_none_right]
    apply firstSome_none
    intro q hq
    rw [stored_buildTrie]
    apply foldl_updAcc_no_match
    intro e he hpe
    have hcov : coversB e (bytesToBits ip) = true := by
      simp only [coversB, hpe, List.isPrefixOf_iff_prefix]
      exact mem_prefixesDesc hq
    rw [h e he] at hcov
    exact Bool.false_ne_true hcov
  · intro e he p hpath hcovp hmax
    have hbits : p <+: bytesToBits ip := List.isPrefixOf_iff_prefix.mp hcovp
    obtain ⟨l1, l2, heq, hlen⟩ := prefixesDesc_split hbits
    show lookupBits (bytesToBits ip) (buildTrie entries).root none = some e.2
    rw [lookupBits_eq_firstSome, oor_none_right, heq, firstSome_append]
    have h1 : firstSome (fun q => stored q (buildTrie entries).root) l1 = none := by
      apply firstSome_none
      intro q hq
      rw [stored_buildTrie]
      apply foldl_updAcc_no_match
      intro e' he' hpe'
      have hqmem : q ∈ prefixesDesc (bytesToBits ip) := by
        rw [heq]; exact List.mem_append_left _ hq
      have hqpref : q <+: bytesToBits ip := mem_prefixesDesc hqmem
      by_cases hee : e' = e
      · subst hee
        rw [hpath] at hpe'
        have : p = q := by injection hpe'
        exact absurd (this ▸ hlen q hq) (lt_irrefl _)
      · have hcov' : coversB e' (bytesToBits ip) = true := by
          simp only [coversB, hpe', List.isPrefixOf_iff_prefix]
          exact hqpref
        have hlt := hmax e' he' hee hcov'
        have hql : pathLen e' = q.length := by simp [pathLen, hpe']
        rw [hql] at hlt
        exact absurd (Nat.lt_trans hlt (hlen q hq)) (lt_irrefl _)
    rw [h1, oor_none]
    have h2 : stored p (buildTrie entries).root = some e.2 := by
      rw [stored_buildTrie]
      apply foldl_updAcc_unique_match
      · exact ⟨e, he, hpath, rfl⟩
      · intro e'' he'' hpe''
        by_cases hee : e'' = e
        · rw [hee]
        · have hcov'' : coversB e'' (bytesToBits ip) = true := by
            simp only [coversB, hpe'', List.isPrefixOf_iff_prefix]
            exact hbits
          have hlt := hmax e'' he'' hee hcov''
          have : pathLen e'' = p.length := by simp [pathLen, hpe'']
          rw [this] at hlt
          exact absurd hlt (lt_irrefl _)
    rw [show firstSome (fun q => stored q (buildTrie entries).root) (p :: l2)
          = oor (stored p (buildTrie entries).root)
              (firstSome (fun q => stored q (buildTrie entries).root) l2) from rfl,
        h2, oor_some]

/-! ### Concrete data for the trie witnesses -/

/-- Metadata tagged to the `/8` range in the overlapping-prefix example. -/
def infoWide : CloudInfo :=
  ⟨"AWS", "S3", "us-east-1", "wide", "10.0.0.0/8"⟩

/-- Metadata tagged to the `/16` range in the overlapping-prefix example. -/
def infoNarrow : CloudInfo :=
  ⟨"AWS", "EC2", "us-west-2", "narrow", "10.1.0.0/16"⟩

/-- The spec's overlapping example: `10.0.0.0/8` then `10.1.0.0/16`,
tagged differently. -/
def demoEntries : List (String × CloudInfo) :=
  [("10.0.0.0/8", infoWide), ("10.1.0.0/16", infoNarrow)]

/-- Witness for the longest-prefix-match theorem: with `10.0.0.0/8` and
`10.1.0.0/16` both inserted, the bytes of `10.1.2.3` resolve to the
`/16` metadata, and an uncovered IP resolves to `none`. -/
theorem trie_longest_match_witness :
    (buildTrie demoEntries).Lookup [10, 1, 2, 3] = some infoNarrow
    ∧ (buildTrie demoEntries).Lookup [192, 168, 0, 1] = none := by
  constructor
  · exact (trie_longest_match demoEntries [10, 1, 2, 3]).2
      ("10.1.0.0/16", infoNarrow) (by decide)
      ((bytesToBits [10, 1, 0, 0]).take 16) (by decide) (by decide) (by decide)
  · exact (trie_longest_match demoEntries [192, 168, 0, 1]).1 (by decide)

/-- **C8**: the Attribution Index's top-level `Lookup` consults the
per-provider tries in the fixed order AWS, Azure, GCP and returns the
first provider's match. -/
theorem netmapper_provider_order (m : NetMapper) (ipStr : String) (ip : List Nat)
    (hp : parseIPv4 ipStr = some ip) :
    ((m.aws.Lookup ip).isSome = true → m.Lookup ipStr = m.aws.Lookup ip)
    ∧ (m.aws.Lookup ip = none → (m.azure.Lookup ip).isSome = true →
        m.Lookup ipStr = m.azure.Lookup ip)
    ∧ (m.aws.Lookup ip = none → m.azure.Lookup ip = none →
        m.Lookup ipStr = m.gcp.Lookup ip) := by
  have hL : m.Lookup ipStr = oor (m.aws.Lookup ip) (oor (m.azure.Lookup ip) (m.gcp.Lookup ip)) := by
    unfold NetMapper.Lookup
    rw [hp]
  rw [hL]
  refine ⟨?_, ?_, ?_⟩
  · intro h
    cases haws : m.aws.Lookup ip with
    | none => rw [haws] at h; simp at h
    | some v => rfl
  · intro h1 h2
    rw [h1, oor_none]
    cases haz : m.azure.Lookup ip with
    | none => rw [haz] at h2; simp at h2
    | some v => rfl
  · intro h1 h2
    rw [h1, h2, oor_none, oor_none]

/-- A mapper whose AWS, Azure and GCP tries all cover `10.0.0.0/8`, and
whose Azure/GCP tries additionally cover `20.0.0.0/8` / `30.0.0.0/8`. -/
def demoMapper : NetMapper where
  aws := buildTrie [("10.0.0.0/8", infoWide)]
  azure := buildTrie [("10.0.0.0/8", infoNarrow), ("20.0.0.0/8", infoWide)]
  gcp := buildTrie [("10.0.0.0/8", infoNarrow), ("30.0.0.0/8", infoWide)]

/-- Witness for the provider-order theorem on `demoMapper`: an IP covered
by all three providers resolves through AWS, one covered only by
Azure/GCP resolves through Azure, and one covered only by GCP resolves
through GCP. -/
theorem netmapper_provider_order_witness :
    demoMapper.Lookup "10.1.2.3" = demoMapper.aws.Lookup [10, 1, 2, 3]
    ∧ demoMapper.Lookup "20.1.2.3" = demoMapper.azure.Lookup [20, 1, 2, 3]
    ∧ demoMapper.Lookup "30.1.2.3" = demoMapper.gcp.Lookup [30, 1, 2, 3] :=
  ⟨(netmapper_provider_order demoMapper "10.1.2.3" [10, 1, 2, 3] (by decide)).1 (by decide),
   (netmapper_provider_order demoMapper "20.1.2.3" [20, 1, 2, 3] (by decide)).2.1
     (by decide) (by decide),
   (netmapper_provider_order demoMapper "30.1.2.3" [30, 1, 2, 3] (by decide)).2.2
     (by decide) (by decide)⟩

/-- **C9**: inserting a malformed CIDR string is skipped without aborting
(the trie, its lookups and its count are unchanged), and a missing or
malformed per-provider dataset leaves that provider's index empty while
`LoadFromDirectory` still completes without error. -/
theorem malformed_cidr_and_dataset_skipped :
    (∀ (t : IPTrie) (s : String) (i : CloudInfo), parseCIDR s = none →
      t.Insert s i = t
      ∧ (∀ ip, (t.Insert s i).Lookup ip = t.Lookup ip)
      ∧ (t.Insert s i).count = t.count)
    ∧ (∀ azD gD, ∃ m, NetMapper.LoadFromDirectory none azD gD = .ok m
        ∧ m.aws.count = 0 ∧ ∀ ip, m.aws.Lookup ip = none) := by
  constructor
  · intro t s i hp
    have h : t.Insert s i = t := by
      unfold IPTrie.Insert
      rw [hp]
    exact ⟨h, fun ip => by rw [h], by rw [h]⟩
  · intro azD gD
    refine ⟨_, rfl, rfl, fun ip => ?_⟩
    show lookupBits (bytesToBits ip) TrieNode.empty none = none
    exact lookupBits_empty _ _

/-- Witness for the error-skipping theorem: inserting `"not-a-cidr"` into
the demo trie changes nothing, and a load with a failed AWS dataset still
succeeds with an empty AWS index. -/
theorem malformed_cidr_and_dataset_skipped_witness :
    (buildTrie demoEntries).Insert "not-a-cidr" infoWide = buildTrie demoEntries
    ∧ ((buildTrie demoEntries).Insert "not-a-cidr" infoWide).Lookup [10, 1, 2, 3]
        = (buildTrie demoEntries).Lookup [10, 1, 2, 3]
    ∧ ((buildTrie demoEntries).Insert "not-a-cidr" infoWide).count
        = (buildTrie demoEntries).count
    ∧ ∃ m, NetMapper.LoadFromDirectory none (some demoEntries) (some demoEntries) = .ok m
        ∧ m.aws.count = 0 ∧ ∀ ip, m.aws.Lookup ip = none := by
  obtain ⟨h1, h2, h3⟩ :=
    malformed_cidr_and_dataset_skipped.1 (buildTrie demoEntries) "not-a-cidr" infoWide
      (by decide)
  exact ⟨h1, h2 _, h3,
    malformed_cidr_and_dataset_skipped.2 (some demoEntries) (some demoEntries)⟩

/-! ## Mutation engine (`pkg/permute/permute.go`)

String primitives are modelled on character lists (ASCII suffices for
every keyword and pattern in the code base); `strings.ToLower`,
`strings.ToUpper`, `strings.Title`, `strings.Replace(s, old, new, 1)`,
`strings.ReplaceAll`, `strings.Join` and `strings.FieldsFunc` are
embedded below. -/

/-- `strings.ToLower` (ASCII). -/
def strLower (s : String) : String := String.mk (s.toList.map Char.toLower)

/-- `strings.ToUpper` (ASCII). -/
def strUpper (s : String) : String := String.mk (s.toList.map Char.toUpper)

/-- Go's `isSeparator` on ASCII: everything except alphanumerics and
underscore separates words for `strings.Title`. -/
def isSeparatorGo (c : Char) : Bool := !(c.isAlphanum || c = '_')

/-- The character walk of `strings.Title`: a letter that follows a
separator (or starts the string) is title-cased. -/
def titleChars : List Char → Bool → List Char
  | [], _ => []
  | c :: rest, prevSep =>
    (if prevSep then c.toUpper else c) :: titleChars rest (isSeparatorGo c)

/-- `strings.Title` (ASCII). -/
def titleGo (s : String) : String := String.mk (titleChars s.toList true)

/-- `strings.Replace(s, old, new, 1)`: replace the first occurrence. -/
def replaceFirstChars (new : List Char) : List Char → List Char → List Char
  | s, old =>
    match s with
    | [] => if old = [] then new else []
    | c :: t =>
      if old.isPrefixOf (c :: t) then new ++ (c :: t).drop old.length
      else c :: replaceFirstChars new t old

/-- `strings.Replace(s, old, new, 1)` on strings. -/
def replaceFirst (s old new : String) : String :=
  String.mk (replaceFirstChars new.toList s.toList old.toList)

/-- `strings.ReplaceAll` for a nonempty pattern (the code only ever
replaces `"%s"`); the fuel argument bounds the walk by the input length. -/
def replaceAllAux (old new : List Char) : Nat → List Char → List Char
  | 0, s => s
  | fuel + 1, s =>
    match s with
    | [] => []
    | c :: t =>
      if old ≠ [] ∧ old.isPrefixOf (c :: t) then
        new ++ replaceAllAux old new fuel ((c :: t).drop old.length)
      else c :: replaceAllAux old new fuel t

/-- `strings.ReplaceAll` on strings. -/
def strReplaceAll (s old new : String) : String :=
  String.mk (replaceAllAux old.toList new.toList s.toList.length s.toList)

/-- `strings.Join`. -/
def joinSep (sep : String) : List String → String
  | [] => ""
  | [x] => x
  | x :: xs => x ++ sep ++ joinSep sep xs

/-- Split at every character satisfying the predicate (keeping empties);
filtering the empties afterwards gives `strings.FieldsFunc`. -/
def splitPred (sep : Char → Bool) : List Char → List (List Char)
  | [] => [[]]
  | c :: rest =>
    let r := splitPred sep rest
    if sep c then [] :: r
    else match r with
      | [] => [[c]]
      | h :: t => (c :: h) :: t

/-- The separator set of the component-pattern split in
`LearnFromDiscovery` (`'-'`, `'_'`, `'.'`). -/
def isFieldSep (c : Char) : Bool := c = '-' || c = '_' || c = '.'

/-- String drop via character lists (Go slice `s[n:]` on ASCII). -/
def strDropChars (s : String) (n : Nat) : String := String.mk (s.toList.drop n)

/-! ### The regex scanners of `LearnFromDiscovery`

Go's `regexp` package uses leftmost-first (Perl-style) matching; for the
three patterns of the source — `\b(20\d{2})\b`,
`(?i)(prod|dev|staging|test|qa|uat|demo)` and
`(?i)(us-east|us-west|eu-west|eu-central|ap-south|ap-northeast)[-_]?\d?`
— that semantics is an explicit left-to-right scan trying the
alternatives in order at each position, emitting non-overlapping
matches. -/

/-- A word character for the `\b` boundary (`[0-9A-Za-z_]`). -/
def isWordChar (c : Char) : Bool := c.isAlphanum || c = '_'

def isWordCharOpt : Option Char → Bool
  | none => false
  | some c => isWordChar c

def headIsWord : List Char → Bool
  | [] => false
  | c :: _ => isWordChar c

/-- The scan of `yearPattern.FindAllString(name, -1)` for
`\b(20\d{2})\b`: a `20dd` run flanked by non-word characters; the fuel
is the input length (each step consumes at least one character). -/
def yearScanAux : Nat → List Char → Option Char → List String
  | 0, _, _ => []
  | fuel + 1, cs, prev =>
    match cs with
    | c1 :: c2 :: c3 :: c4 :: rest =>
      if c1 = '2' && c2 = '0' && c3.isDigit && c4.isDigit
          && !isWordCharOpt prev && !headIsWord rest then
        String.mk [c1, c2, c3, c4] :: yearScanAux fuel rest (some c4)
      else
        yearScanAux fuel (c2 :: c3 :: c4 :: rest) (some c1)
    | _ => []

def yearScan (cs : List Char) : List String := yearScanAux cs.length cs none

/-- Case-insensitive prefix match of a lowercase pattern. -/
def ciPrefix : List Char → List Char → Bool
  | [], _ => true
  | _ :: _, [] => false
  | p :: ps, c :: cs => p = c.toLower && ciPrefix ps cs

/-- Try the alternatives in order at the current position, returning the
matched input text and the remainder. -/
def tryAlts : List (List Char) → List Char → Option (List Char × List Char)
  | [], _ => none
  | a :: more, cs =>
    if ciPrefix a cs then some (cs.take a.length, cs.drop a.length)
    else tryAlts more cs

/-- The alternatives of `envPattern`. -/
def envAlts : List (List Char) :=
  [['p','r','o','d'], ['d','e','v'], ['s','t','a','g','i','n','g'],
   ['t','e','s','t'], ['q','a'], ['u','a','t'], ['d','e','m','o']]

/-- The scan of `envPattern.FindAllString(name, -1)`; the fuel is the
input length (each step consumes at least one character). -/
def envScanAux : Nat → List Char → List String
  | 0, _ => []
  | fuel + 1, cs =>
    match tryAlts envAlts cs with
    | some (m, rest) => String.mk m :: envScanAux fuel rest
    | none =>
      match cs with
      | [] => []
      | _ :: t => envScanAux fuel t

def envScan (cs : List Char) : List String := envScanAux cs.length cs

/-- The alternatives of `regionPattern`. -/
def regionAlts : List (List Char) :=
  ["us-east".toList, "us-west".toList, "eu-west".toList,
   "eu-central".toList, "ap-south".toList, "ap-northeast".toList]

/-- One match attempt of `regionPattern` (`alt[-_]?\d?`, both optionals
greedy) at the current position. -/
def tryRegion (cs : List Char) : Option (List Char × List Char) :=
  match tryAlts regionAlts cs with
  | none => none
  | some (m, rest) =>
    let sepStep : List Char × List Char :=
      match rest with
      | c :: t => if c = '-' || c = '_' then (m ++ [c], t) else (m, rest)
      | [] => (m, rest)
    match sepStep.2 with
    | c :: t => if c.isDigit then some (sepStep.1 ++ [c], t) else some sepStep
    | [] => some sepStep

/-- The scan of `regionPattern.FindAllString(name, -1)`. -/
def regionScanAux : Nat → List Char → List String
  | 0, _ => []
  | fuel + 1, cs =>
    match tryRegion cs with
    | some (m, rest) => String.mk m :: regionScanAux fuel rest
    | none =>
      match cs with
      | [] => []
      | _ :: t => regionScanAux fuel t

def regionScan (cs : List Char) : List String := regionScanAux cs.length cs

/-! ### `PermuteCore` -/

/-- `permute.getDefaultMutations`. -/
def getDefaultMutations : List String :=
  ["prod", "production", "dev", "development", "staging", "stage",
   "test", "testing", "qa", "uat", "demo", "sandbox", "beta", "alpha",
   "live", "preview", "internal", "external", "public", "private",
   "backup", "backups", "bak", "archive", "archives", "old",
   "logs", "log", "logging", "audit", "data", "db", "database",
   "assets", "static", "media", "images", "img", "files", "docs",
   "documents", "downloads", "uploads", "tmp", "temp", "cache",
   "config", "configs", "configuration", "settings",
   "web", "api", "app", "apps", "www", "cdn", "edge",
   "storage", "store", "bucket", "blob", "s3", "gcs", "azure",
   "aws", "cloud", "infra", "infrastructure",
   "secrets", "secret", "keys", "key", "cert", "certs", "certificates",
   "private", "confidential", "restricted", "admin", "root",
   "credentials", "creds", "tokens", "auth", "authentication",
   "v1", "v2", "v3", "new", "legacy", "deprecated",
   "main", "master", "primary", "secondary", "replica"]

/-- `permute.PermuteCore`: the hint maps are modelled as association
lists (they are only ever bumped, never iterated by the claims under
verification). -/
structure PermuteCore where
  baseMutations : List String
  regionHints : List (String × Nat)
  patternHints : List (String × Nat)
  yearHints : List String

/-- `permute.NewPermuteCore`. -/
def NewPermuteCore : PermuteCore := ⟨getDefaultMutations, [], [], []⟩

/-- Increment a hint counter (`hints[k]++` on a Go map). -/
def bumpHint (m : List (String × Nat)) (k : String) : List (String × Nat) :=
  if (m.lookup k).isSome then
    m.map fun kv => if kv.1 = k then (kv.1, kv.2 + 1) else kv
  else m ++ [(k, 1)]

/-- Decimal digit-run value (`strconv.Atoi` on the all-digit text the
year scanner produces, on which it cannot fail). -/
def digitsVal (cs : List Char) : Nat :=
  cs.foldl (fun acc c => acc * 10 + (c.toNat - '0'.toNat)) 0

/-- The adjacent-year candidates emitted for one matched year
(`y-1`, `y+1`, `y+2`, each replacing the first occurrence in `name`). -/
def yearSiblings (name : String) (year : String) : List String :=
  let y := digitsVal year.toList
  [replaceFirst name year (toString (y - 1)),
   replaceFirst name year (toString (y + 1)),
   replaceFirst name year (toString (y + 2))]

/-- The environment list of the learning step. -/
def learnEnvList : List String :=
  ["prod", "dev", "staging", "test", "qa", "uat", "demo", "sandbox"]

/-- The sibling-environment candidates emitted for one matched
(lowercased) environment token. -/
def envSiblings (name : String) (env : String) : List String :=
  learnEnvList.filterMap fun newEnv =>
    if newEnv ≠ env then some (replaceFirst (strLower name) env newEnv) else none

/-- The region list of the learning step. -/
def learnRegionList : List String :=
  ["us-east-1", "us-east-2", "us-west-1", "us-west-2",
   "eu-west-1", "eu-west-2", "eu-central-1",
   "ap-south-1", "ap-northeast-1", "ap-southeast-1"]

/-- The sibling-region candidates emitted for one matched (lowercased)
region token. -/
def regionSiblings (name : String) (region : String) : List String :=
  learnRegionList.filterMap fun newRegion =>
    if newRegion ≠ region then
      some (replaceFirst (strLower name) region newRegion)
    else none

/-- The `"{0}-{1}-..."` component-pattern key bumped when a name has at
least two `-`/`_`/`.`-separated parts. -/
def partsPatternKey (n : Nat) : String :=
  joinSep "-" ((List.range n).map fun i => "\x7b" ++ toString i ++ "\x7d")

/-- `PermuteCore.LearnFromDiscovery`: extract year, environment and
region tokens from a discovered name, emit sibling candidates for each,
and bump the hint tables; returns the candidates and the updated state. -/
def LearnFromDiscovery (p : PermuteCore) (name : String) : List String × PermuteCore :=
  let yearMatches := yearScan name.toList
  let envMatches := envScan name.toList
  let regionMatches := regionScan name.toList
  let candidates :=
    ((yearMatches.map (yearSiblings name)).flatten)
    ++ ((envMatches.map fun m => envSiblings name (strLower m)).flatten)
    ++ ((regionMatches.map fun m => regionSiblings name (strLower m)).flatten)
  let patternHints1 :=
    envMatches.foldl (fun h m => bumpHint h (strLower m)) p.patternHints
  let regionHints1 :=
    regionMatches.foldl (fun h m => bumpHint h (strLower m)) p.regionHints
  let parts := (splitPred isFieldSep name.toList).filter (fun f => f ≠ [])
  let patternHints2 :=
    if parts.length ≥ 2 then bumpHint patternHints1 (partsPatternKey parts.length)
    else patternHints1
  (candidates,
   { p with
      yearHints := p.yearHints ++ yearMatches,
      patternHints := patternHints2,
      regionHints := regionHints1 })

/-- The `cloudPatterns` table of `GenerateAdvanced`. -/
def cloudPatternsList : List String :=
  ["%s-bucket", "%s-storage", "%s-data", "%s-backup", "%s-assets",
   "%s-static", "%s-cdn", "%s-logs", "bucket-%s", "storage-%s", "data-%s"]

/-- The environment list of `GenerateAdvanced`. -/
def genEnvList : List String :=
  ["prod", "production", "dev", "development", "staging", "test", "qa", "uat"]

/-- The region list of `GenerateAdvanced`. -/
def genRegionList : List String :=
  ["us-east-1", "us-west-2", "eu-west-1", "eu-central-1",
   "ap-south-1", "ap-northeast-1",
   "eastus", "westus", "westeurope",
   "us-central1", "europe-west1"]

/-- `uniqueStrings`: order-preserving deduplication via a seen-set (the
seen-set always holds exactly the strings already in the result). -/
def uniqueStrings (input : List String) : List String :=
  input.foldl (fun result s => if s ∈ result then result else result ++ [s]) []

/-- The raw (pre-deduplication) list built by
`PermuteCore.GenerateAdvanced`, in the order the Go code appends it.
`currentYear` stands for `time.Now().Year()`. -/
def generateAdvancedRaw (p : PermuteCore) (currentYear : Nat) (keyword : String) :
    List String :=
  let caseVars := [strLower keyword, strUpper keyword, titleGo (strLower keyword)]
  let sepMuts :=
    (p.baseMutations.map fun m =>
      ((["", "-", "_", "."].map fun sep =>
        [keyword ++ sep ++ m, m ++ sep ++ keyword])).flatten).flatten
  let numSeqs :=
    ((List.range 10).map fun i =>
      let n := toString (i + 1)
      [keyword ++ n, keyword ++ "-" ++ n, keyword ++ "0" ++ n]).flatten
  let cloudPats := cloudPatternsList.map fun pat => strReplaceAll pat "%s" keyword
  let envCombos :=
    (genEnvList.map fun env =>
      [keyword ++ "-" ++ env, env ++ "-" ++ keyword, keyword ++ "." ++ env]).flatten
  let yearCombos :=
    ((List.range 5).map fun i =>
      let year := toString (currentYear - 3 + i)
      [keyword ++ "-" ++ year, keyword ++ year,
       keyword ++ "-" ++ strDropChars year 2]).flatten
  let regionCombos :=
    (genRegionList.map fun region =>
      [keyword ++ "-" ++ region, region ++ "-" ++ keyword]).flatten
  caseVars ++ sepMuts ++ numSeqs ++ cloudPats
    ++ envCombos ++ yearCombos ++ regionCombos

/-- `PermuteCore.GenerateAdvanced`: the one-shot exhaustive variant list,
deduplicated by `uniqueStrings`. -/
def GenerateAdvanced (p : PermuteCore) (currentYear : Nat) (keyword : String) :
    List String :=
  uniqueStrings (generateAdvancedRaw p currentYear keyword)

/-! ### Claims about the mutation engine -/

theorem uniqueStrings_nodup (l : List String) : (uniqueStrings l).Nodup := by
  suffices h : ∀ acc : List String, acc.Nodup →
      (l.foldl (fun result s => if s ∈ result then result else result ++ [s]) acc).Nodup from
    h [] List.nodup_nil
  induction l with
  | nil => intro acc hacc; exact hacc
  | cons s t ih =>
    intro acc hacc
    simp only [List.foldl_cons]
    by_cases hs : s ∈ acc
    · rw [if_pos hs]; exact ih acc hacc
    · rw [if_neg hs]
      exact ih _ (by simp [List.nodup_append, hacc, hs])

/-- **C10**: the one-shot exhaustive mutation generator returns no
duplicate strings — each candidate appears exactly once. -/
theorem generateAdvanced_nodup (p : PermuteCore) (currentYear : Nat) (keyword : String) :
    (GenerateAdvanced p currentYear keyword).Nodup :=
  uniqueStrings_nodup _

/-- **C6**: `learn` applied to `"acme-prod-2024"` yields candidates with
`2023`, `2025` and `2026` in place of the year, and candidates with each
of the other six canonical environment names of the environment pattern
in place of `prod`. -/
theorem learn_acme_prod_2024 :
    "acme-prod-2023" ∈ (LearnFromDiscovery NewPermuteCore "acme-prod-2024").1
    ∧ "acme-prod-2025" ∈ (LearnFromDiscovery NewPermuteCore "acme-prod-2024").1
    ∧ "acme-prod-2026" ∈ (LearnFromDiscovery NewPermuteCore "acme-prod-2024").1
    ∧ "acme-dev-2024" ∈ (LearnFromDiscovery NewPermuteCore "acme-prod-2024").1
    ∧ "acme-staging-2024" ∈ (LearnFromDiscovery NewPermuteCore "acme-prod-2024").1
    ∧ "acme-test-2024" ∈ (LearnFromDiscovery NewPermuteCore "acme-prod-2024").1
    ∧ "acme-qa-2024" ∈ (LearnFromDiscovery NewPermuteCore "acme-prod-2024").1
    ∧ "acme-uat-2024" ∈ (LearnFromDiscovery NewPermuteCore "acme-prod-2024").1
    ∧ "acme-demo-2024" ∈ (LearnFromDiscovery NewPermuteCore "acme-prod-2024").1 := by
  decide

/-! ## Stealth DNS resolver (`pkg/net`, `dns.go` part of `interfaces.go`)

`CheckExists` consults a memo cache, and otherwise performs one network
lookup whose outcome is modelled by an oracle: an address list, a
definitive NXDOMAIN (`dnsErr.IsNotFound`), or any other (transient)
error.  The function returns the `DNSResult`, the updated cache and the
number of network queries issued (0 on a cache hit, 1 otherwise). -/

/-- The outcome of one `resolver.LookupHost` network call. -/
inductive LookupOutcome where
  | found (ips : List String)
  | nxdomain
  | failure (msg : String)
deriving DecidableEq

/-- `net.DNSResult` (the `Latency` field, a wall-clock duration, is not
modelled). -/
structure DNSResult where
  domain : String
  found : Bool
  ips : List String
  error : Option String
deriving DecidableEq

/-- `DNSResolver.CheckExists` as a function of the resolver cache and a
network oracle: cache hits answer immediately; NXDOMAIN is cached as a
permanent negative; a resolving domain is cached as a positive; any other
error is returned with the `error` field set and is **not** cached. -/
def checkExists (oracle : String → LookupOutcome) (cache : List (String × Bool))
    (domain : String) : DNSResult × List (String × Bool) × Nat :=
  match cache.lookup domain with
  | some b => (⟨domain, b, [], none⟩, cache, 0)
  | none =>
    match oracle domain with
    | .found ips => (⟨domain, true, ips, none⟩, (domain, true) :: cache, 1)
    | .nxdomain => (⟨domain, false, [], none⟩, (domain, false) :: cache, 1)
    | .failure m => (⟨domain, false, [], some m⟩, cache, 1)

/-- **C3**: a definitive negative (`found = false`, no error) is cached
permanently — a second `checkExists` for the same domain answers from the
cache with zero network queries, whatever the network would now say;
transient errors are not cached; and a transient-error result is
distinguishable from a definitive negative by its `error` field. -/
theorem checkExists_negative_caching
    (oracle : String → LookupOutcome) (cache : List (String × Bool)) (domain : String) :
    (((checkExists oracle cache domain).1.found = false ∧
      (checkExists oracle cache domain).1.error = none) →
      ∀ oracle2 : String → LookupOutcome,
        checkExists oracle2 (checkExists oracle cache domain).2.1 domain
          = (⟨domain, false, [], none⟩, (checkExists oracle cache domain).2.1, 0))
    ∧ (∀ m, oracle domain = .failure m → cache.lookup domain = none →
        (checkExists oracle cache domain).2.1 = cache
        ∧ (checkExists oracle cache domain).1.error = some m
        ∧ (checkExists oracle cache domain).1.error ≠ none) := by
  constructor
  · intro h oracle2
    obtain ⟨hfound, herr⟩ := h
    cases hc : cache.lookup domain with
    | some b =>
      have hb : b = false := by
        have hf : (checkExists oracle cache domain).1.found = b := by
          unfold checkExists; rw [hc]
        rw [hf] at hfound
        exact hfound
      subst hb
      have hcache2 : (checkExists oracle cache domain).2.1 = cache := by
        unfold checkExists; rw [hc]
      rw [hcache2]
      unfold checkExists
      rw [hc]
    | none =>
      cases ho : oracle domain with
      | found ips =>
        exfalso
        have hf : (checkExists oracle cache domain).1.found = true := by
          unfold checkExists; rw [hc, ho]
        rw [hf] at hfound
        exact Bool.noConfusion hfound
      | nxdomain =>
        have hcache2 : (checkExists oracle cache domain).2.1 = (domain, false) :: cache := by
          unfold checkExists; rw [hc, ho]
        rw [hcache2]
        unfold checkExists
        simp [List.lookup]
      | failure m =>
        exfalso
        have hf : (checkExists oracle cache domain).1.error = some m := by
          unfold checkExists; rw [hc, ho]
        rw [hf] at herr
        exact Option.noConfusion herr
  · intro m hm hc
    unfold checkExists
    rw [hc, hm]
    simp

/-- Witness for the negative-caching theorem: a concrete oracle answering
NXDOMAIN for `"absent.example"`, whose second call is answered from the
cache with zero queries even against an oracle that would now resolve the
name, and a transient failure that leaves the cache empty. -/
theorem checkExists_negative_caching_witness :
    checkExists (fun _ => .found ["1.2.3.4"])
        (checkExists (fun _ => .nxdomain) [] "absent.example").2.1 "absent.example"
      = (⟨"absent.example", false, [], none⟩,
          (checkExists (fun _ => .nxdomain) [] "absent.example").2.1, 0)
    ∧ (checkExists (fun _ => .failure "i/o timeout") [] "absent.example").2.1 = []
    ∧ (checkExists (fun _ => .failure "i/o timeout") [] "absent.example").1.error
        = some "i/o timeout" := by
  refine ⟨?_, ?_, ?_⟩
  · exact (checkExists_negative_caching (fun _ => .nxdomain) [] "absent.example").1
      (by decide) (fun _ => .found ["1.2.3.4"])
  · exact ((checkExists_negative_caching (fun _ => .failure "i/o timeout") []
      "absent.example").2 "i/o timeout" rfl rfl).1
  · exact (((checkExists_negative_caching (fun _ => .failure "i/o timeout") []
      "absent.example").2 "i/o timeout" rfl rfl).2).1

/-! ## Object-storage and catalog providers
(`pkg/providers/aws/s3_v2.go`, `pkg/providers/azure` (AzureBlobProviderV2),
`pkg/providers/cloud_assets.go`)

Network effects are an explicit oracle record; every provider check
returns the number of HTTP operations it issued (the HEAD/GET of
`Client.Check`, the GET of `Client.GetBody`, and the `http.Head` of
`detectRegion` each count as one). -/

/-- `strings.Contains`. -/
def containsAux : List Char → List Char → Bool
  | [], _ => false
  | c :: t, sub => sub.isPrefixOf (c :: t) || containsAux t sub

/-- `strings.Contains` on strings (`Contains(s, "") = true`). -/
def strContains (s sub : String) : Bool :=
  if sub.toList = [] then true else containsAux s.toList sub.toList

/-- Split at the first occurrence of a (nonempty) separator. -/
def splitFirst (sep : List Char) : List Char → Option (List Char × List Char)
  | [] => none
  | c :: t =>
    if sep.isPrefixOf (c :: t) then some ([], (c :: t).drop sep.length)
    else
      match splitFirst sep t with
      | none => none
      | some (pre, post) => some (c :: pre, post)

/-- `strings.Split` for a nonempty separator (the only use in the code);
the fuel bounds the number of segments by the input length. -/
def splitStrAux (sep : List Char) : Nat → List Char → List (List Char)
  | 0, s => [s]
  | fuel + 1, s =>
    match splitFirst sep s with
    | none => [s]
    | some (pre, post) => pre :: splitStrAux sep fuel post

/-- `strings.Split` on strings. -/
def strSplit (s sep : String) : List String :=
  (splitStrAux sep.toList (s.toList.length + 1) s.toList).map String.mk

/-- `strings.TrimPrefix`. -/
def trimPfxGo (s pre : String) : String :=
  if pre.toList.isPrefixOf s.toList then String.mk (s.toList.drop pre.toList.length) else s

/-- `strings.HasPrefix`. -/
def hasPfxGo (s pre : String) : Bool := pre.toList.isPrefixOf s.toList

/-- `strings.Trim(s, "/")`. -/
def trimSlashes (s : String) : String :=
  String.mk (((s.toList.dropWhile (· = '/')).reverse.dropWhile (· = '/')).reverse)

/-- `core.Result` (a Finding); Go zero values are the field defaults. -/
structure Result where
  url : String
  provider : String
  status : Nat := 0
  size : Int := 0
  permissions : String := ""
  files : List String := []
  error : String := ""
deriving DecidableEq

instance {ε α : Type} [DecidableEq ε] [DecidableEq α] : DecidableEq (Except ε α)
  | .ok a, .ok b =>
    if h : a = b then isTrue (by rw [h])
    else isFalse (by intro hh; injection hh; contradiction)
  | .error a, .error b =>
    if h : a = b then isTrue (by rw [h])
    else isFalse (by intro hh; injection hh; contradiction)
  | .ok _, .error _ => isFalse (by intro hh; exact Except.noConfusion hh)
  | .error _, .ok _ => isFalse (by intro hh; exact Except.noConfusion hh)

/-- The network oracle seen by the providers: the DNS answer per host,
the `Client.Check` HEAD outcome per URL (status and content length), the
`Client.GetBody` outcome per URL, the `x-amz-bucket-region` header of an
`http.Head` per URL (`detectRegion`), and the outcomes of the
`encoding/xml` unmarshalling of listing bodies (key/name and size pairs;
`none` models a decode error).  Only the unmarshalling itself is
abstracted — the take-10 capping and `"key (size bytes)"` formatting of
`parseS3XMLv2`/`parseAzureBlobXML` are embedded below. -/
structure NetworkEnv where
  dns : String → DNSResult
  http : String → Except String (Nat × Int)
  body : String → Except String String
  headRegion : String → Except String String
  xmlS3 : String → Option (List (String × Int))
  xmlAzure : String → Option (List (String × Int))

/-- `parseS3XMLv2`: first 10 keys, formatted. -/
def parseS3Files (env : NetworkEnv) (b : String) : List String :=
  match env.xmlS3 b with
  | none => []
  | some contents =>
    (contents.take 10).map fun kv => kv.1 ++ " (" ++ toString kv.2 ++ " bytes)"

/-- `parseAzureBlobXML`: first 10 blob names, formatted. -/
def parseAzureFiles (env : NetworkEnv) (b : String) : List String :=
  match env.xmlAzure b with
  | none => []
  | some blobs =>
    (blobs.take 10).map fun kv => kv.1 ++ " (" ++ toString kv.2 ++ " bytes)"

/-- `aws.extractBucketName`. -/
def extractBucketName (url : String) : String :=
  let url1 := trimPfxGo (trimPfxGo url "http://") "https://"
  if strContains url1 ".s3." && strContains url1 ".amazonaws.com" then
    match strSplit url1 ".s3." with
    | p :: _ => p
    | [] => ""
  else if hasPfxGo url1 "s3.amazonaws.com/" then
    match strSplit (trimPfxGo url1 "s3.amazonaws.com/") "/" with
    | p :: _ => p
    | [] => ""
  else ""

/-- `S3ProviderV2.detectRegion`: consult the per-bucket region cache,
otherwise issue one `http.Head` and cache a nonempty header value.
Returns the region, the number of HTTP operations and the new cache. -/
def detectRegion (env : NetworkEnv) (regionCache : List (String × String))
    (target : String) : String × Nat × List (String × String) :=
  let bucketName := extractBucketName target
  if bucketName = "" then ("", 0, regionCache)
  else
    match regionCache.lookup bucketName with
    | some region => (region, 0, regionCache)
    | none =>
      match env.headRegion ("http://" ++ bucketName ++ ".s3.amazonaws.com") with
      | .error _ => ("", 1, regionCache)
      | .ok region =>
        if region ≠ "" then (region, 1, (bucketName, region) :: regionCache)
        else (region, 1, regionCache)

/-- `S3ProviderV2.Check`: phase 1 is the stealth DNS check on the
virtual-hosted hostname (an error there yields an error-carrying Finding,
a definitive negative yields no Finding and no HTTP request); phase 2 is
the HTTP probe classified by status.  Returns the Go `(result, error)`
pair as an `Except`, the number of HTTP operations issued and the updated
region cache. -/
def s3Check (env : NetworkEnv) (regionCache : List (String × String)) (target : String) :
    Except String (Option Result) × Nat × List (String × String) :=
  let bucketName := extractBucketName target
  if bucketName = "" then
    (.error ("could not extract bucket name from " ++ target), 0, regionCache)
  else
    let dnsResult := env.dns (bucketName ++ ".s3.amazonaws.com")
    match dnsResult.error with
    | some e => (.ok (some { url := target, provider := "AWS", error := e }), 0, regionCache)
    | none =>
      if !dnsResult.found then (.ok none, 0, regionCache)
      else
        match env.http target with
        | .error e =>
          (.ok (some { url := target, provider := "AWS", status := 0, error := e }),
            1, regionCache)
        | .ok (status, size) =>
          let base : Result := { url := target, provider := "AWS", status := status, size := size }
          if status = 200 then
            match env.body target with
            | .ok b =>
              let r : Result :=
                { base with permissions := "PUBLIC_READ", files := parseS3Files env b }
              (.ok (some r), 2, regionCache)
            | .error _ =>
              (.ok (some { base with permissions := "PUBLIC_READ" }), 2, regionCache)
          else if status = 204 then
            (.ok (some { base with permissions := "PUBLIC_EMPTY" }), 1, regionCache)
          else if status = 403 then
            (.ok (some { base with permissions := "AUTHENTICATED" }), 1, regionCache)
          else if status = 404 then (.ok none, 1, regionCache)
          else if status = 301 ∨ status = 307 then
            match detectRegion env regionCache target with
            | (region, calls, cache') =>
              if region ≠ "" then
                let msg := "redirect to region: " ++ region
                let r : Result := { base with permissions := "REDIRECT", error := msg }
                (.ok (some r), 1 + calls, cache')
              else
                (.ok (some { base with permissions := "REDIRECT" }), 1 + calls, cache')
          else (.ok (some { base with permissions := "UNKNOWN" }), 1, regionCache)

/-- `azure.extractAzureInfo`: account and container of an Azure blob URL. -/
def extractAzureInfo (url : String) : String × String :=
  let url1 := trimPfxGo (trimPfxGo url "http://") "https://"
  if strContains url1 ".blob.core.windows.net" then
    let parts := strSplit url1 ".blob.core.windows.net"
    let account := match parts with | p :: _ => p | [] => ""
    let container :=
      match parts with
      | _ :: p1 :: _ =>
        (match strSplit (trimSlashes p1) "/" with
         | p0 :: _ =>
           if p0 ≠ "" then (match strSplit p0 "?" with | q :: _ => q | [] => "") else ""
         | [] => "")
      | _ => ""
    (account, container)
  else ("", "")

/-- The URL actually probed by `AzureBlobProviderV2.Check`: a named
container is rewritten to the `restype=container&comp=list` API form
unless the target already carries it. -/
def azureCheckURL (target accountName containerName : String) : String :=
  if containerName ≠ "" ∧ strContains target "restype=container" = false then
    "http://" ++ accountName ++ ".blob.core.windows.net/" ++ containerName
      ++ "?restype=container&comp=list"
  else target

/-- `AzureBlobProviderV2.Check`: DNS phase as for S3; the HTTP phase
classifies 200 as a public listing, 404 as no Finding only when no
container is named (otherwise the account exists and the Finding is
`CONTAINER_NOT_FOUND`), 403 as private and 409 as disabled. -/
def azureCheck (env : NetworkEnv) (target : String) : Except String (Option Result) × Nat :=
  match extractAzureInfo target with
  | (accountName, containerName) =>
    if accountName = "" then
      (.error ("could not extract account from " ++ target), 0)
    else
      let dnsResult := env.dns (accountName ++ ".blob.core.windows.net")
      match dnsResult.error with
      | some e => (.ok (some { url := target, provider := "Azure", error := e }), 0)
      | none =>
        if !dnsResult.found then (.ok none, 0)
        else
          let checkURL := azureCheckURL target accountName containerName
          match env.http checkURL with
          | .error e => (.ok (some { url := target, provider := "Azure", error := e }), 1)
          | .ok (status, size) =>
            let base : Result :=
              { url := target, provider := "Azure", status := status, size := size }
            if status = 200 then
              match env.body checkURL with
              | .ok b =>
                let r : Result :=
                  { base with permissions := "PUBLIC_LIST", files := parseAzureFiles env b }
                (.ok (some r), 2)
              | .error _ => (.ok (some { base with permissions := "PUBLIC_LIST" }), 2)
            else if status = 404 then
              if containerName = "" then (.ok none, 1)
              else (.ok (some { base with permissions := "CONTAINER_NOT_FOUND" }), 1)
            else if status = 403 then (.ok (some { base with permissions := "PRIVATE" }), 1)
            else if status = 409 then (.ok (some { base with permissions := "DISABLED" }), 1)
            else (.ok (some { base with permissions := "UNKNOWN" }), 1)

/-- The Finding `AzureBlobProviderV2.Check` builds for a 404 on a named
container. -/
def containerNotFound (target : String) (sz : Int) : Result :=
  { url := target, provider := "Azure", status := 404, size := sz,
    permissions := "CONTAINER_NOT_FOUND" }

/-- **C2** (amended): a definitive DNS negative short-circuits both
object-storage providers with no Finding and no HTTP operation; after a
positive DNS and an HTTP 404 the S3 provider always discards the
candidate, and the Azure provider discards it only when the target names
no container — with a container named, the account exists and `Check`
returns a `CONTAINER_NOT_FOUND` Finding. -/
theorem storage_two_phase_check (env : NetworkEnv) (cache : List (String × String))
    (target : String) :
    (∀ b, extractBucketName target = b → b ≠ "" →
      (env.dns (b ++ ".s3.amazonaws.com")).error = none →
      (env.dns (b ++ ".s3.amazonaws.com")).found = false →
      s3Check env cache target = (.ok none, 0, cache))
    ∧ (∀ b sz, extractBucketName target = b → b ≠ "" →
        (env.dns (b ++ ".s3.amazonaws.com")).error = none →
        (env.dns (b ++ ".s3.amazonaws.com")).found = true →
        env.http target = .ok (404, sz) →
        s3Check env cache target = (.ok none, 1, cache))
    ∧ (∀ account container, extractAzureInfo target = (account, container) →
        account ≠ "" →
        (env.dns (account ++ ".blob.core.windows.net")).error = none →
        (env.dns (account ++ ".blob.core.windows.net")).found = false →
        azureCheck env target = (.ok none, 0))
    ∧ (∀ account sz, extractAzureInfo target = (account, "") → account ≠ "" →
        (env.dns (account ++ ".blob.core.windows.net")).error = none →
        (env.dns (account ++ ".blob.core.windows.net")).found = true →
        env.http (azureCheckURL target account "") = .ok (404, sz) →
        azureCheck env target = (.ok none, 1))
    ∧ (∀ account container sz, extractAzureInfo target = (account, container) →
        account ≠ "" → container ≠ "" →
        (env.dns (account ++ ".blob.core.windows.net")).error = none →
        (env.dns (account ++ ".blob.core.windows.net")).found = true →
        env.http (azureCheckURL target account container) = .ok (404, sz) →
        azureCheck env target = (.ok (some (containerNotFound target sz)), 1)) := by
  refine ⟨?_, ?_, ?_, ?_, ?_⟩
  · intro b hb hbne herr hfound
    simp only [s3Check]
    rw [hb]
    simp [hbne, herr, hfound]
  · intro b sz hb hbne herr hfound hhttp
    simp only [s3Check]
    rw [hb]
    simp [hbne, herr, hfound, hhttp]
  · intro account container hA hane herr hfound
    simp only [azureCheck]
    rw [hA]
    simp [hane, herr, hfound]
  · intro account sz hA hane herr hfound hhttp
    simp only [azureCheck]
    rw [hA]
    simp [hane, herr, hfound, hhttp]
  · intro account container sz hA hane hcne herr hfound hhttp
    simp only [azureCheck]
    rw [hA]
    simp [hane, hcne, herr, hfound, hhttp]
    rfl

/-- A DNS oracle that resolves every host. -/
def dnsYes : String → DNSResult := fun d => ⟨d, true, ["1.2.3.4"], none⟩

/-- A DNS oracle that answers a definitive NXDOMAIN for every host. -/
def dnsNo : String → DNSResult := fun d => ⟨d, false, [], none⟩

/-- A network where every host resolves and every HTTP probe returns 404. -/
def envPos404 : NetworkEnv where
  dns := dnsYes
  http := fun _ => .ok (404, 0)
  body := fun _ => .error "no body"
  headRegion := fun _ => .error "no head"
  xmlS3 := fun _ => none
  xmlAzure := fun _ => none

/-- A network where no host resolves (definitive negatives everywhere). -/
def envNeg : NetworkEnv where
  dns := dnsNo
  http := fun _ => .ok (200, 0)
  body := fun _ => .error "no body"
  headRegion := fun _ => .error "no head"
  xmlS3 := fun _ => none
  xmlAzure := fun _ => none

/-- The Azure target of the spec's 404 scenario that names a container. -/
def azContainerTarget : String :=
  "http://acme.blob.core.windows.net/backup?restype=container&comp=list"

/-- Witness for the two-phase-check theorem at concrete networks: a DNS
negative yields no Finding and zero HTTP operations for both providers;
DNS-positive + 404 discards the S3 candidate and the container-less Azure
candidate; and the container-bearing Azure 404 yields the
`CONTAINER_NOT_FOUND` Finding. -/
theorem storage_two_phase_check_witness :
    s3Check envNeg [] "http://acme.s3.amazonaws.com" = (.ok none, 0, [])
    ∧ s3Check envPos404 [] "http://acme.s3.amazonaws.com" = (.ok none, 1, [])
    ∧ azureCheck envNeg "http://acme.blob.core.windows.net" = (.ok none, 0)
    ∧ azureCheck envPos404 "http://acme.blob.core.windows.net" = (.ok none, 1)
    ∧ azureCheck envPos404 azContainerTarget
        = (.ok (some (containerNotFound azContainerTarget 0)), 1) := by
  refine ⟨?_, ?_, ?_, ?_, ?_⟩
  · exact (storage_two_phase_check envNeg [] "http://acme.s3.amazonaws.com").1
      "acme" (by decide) (by decide) (by decide) (by decide)
  · exact (storage_two_phase_check envPos404 [] "http://acme.s3.amazonaws.com").2.1
      "acme" 0 (by decide) (by decide) (by decide) (by decide) (by decide)
  · exact (storage_two_phase_check envNeg [] "http://acme.blob.core.windows.net").2.2.1
      "acme" "" (by decide) (by decide) (by decide) (by decide)
  · exact (storage_two_phase_check envPos404 [] "http://acme.blob.core.windows.net").2.2.2.1
      "acme" 0 (by decide) (by decide) (by decide) (by decide) (by decide)
  · exact (storage_two_phase_check envPos404 [] azContainerTarget).2.2.2.2
      "acme" "backup" 0 (by decide) (by decide) (by decide) (by decide) (by decide)
      (by decide)

/-- Counterexample to C2 as stated: for the Azure provider, DNS positive
plus HTTP 404 does **not** always discard the candidate — when the target
names a container, `Check` returns a `CONTAINER_NOT_FOUND` Finding. -/
theorem storage_404_not_always_discarded :
    (envPos404.dns "acme.blob.core.windows.net").found = true
    ∧ (envPos404.dns "acme.blob.core.windows.net").error = none
    ∧ envPos404.http azContainerTarget = .ok (404, 0)
    ∧ (azureCheck envPos404 azContainerTarget).1 ≠ .ok none
    ∧ (azureCheck envPos404 azContainerTarget).1
        = .ok (some (containerNotFound azContainerTarget 0)) := by
  decide

/-! ### Catalog-driven enumerator (`pkg/providers/cloud_assets.go`) -/

/-- `providers.CloudService` (the catalog fields used by `CheckTarget`). -/
structure CloudService where
  provider : String
  serviceType : String
  domainPattern : String
  severity : String
deriving DecidableEq

/-- `providers.CloudTarget`. -/
structure CloudTarget where
  url : String
  service : CloudService
  region : String := ""
deriving DecidableEq

/-- `providers.CloudAssetResult` (the `Headers` map is created empty and
never written by `CheckTarget`; it is omitted). -/
structure CloudAssetResult where
  url : String
  provider : String
  serviceType : String
  region : String
  status : Nat := 0
  severity : String
  accessible : Bool := false
  error : String := ""
deriving DecidableEq

/-- The hostname extraction of `CheckTarget` (strip scheme, cut at the
first slash). -/
def targetHostname (url : String) : String :=
  let h := trimPfxGo (trimPfxGo url "https://") "http://"
  match strSplit h "/" with
  | p :: _ => p
  | [] => ""

/-- `CloudAssetEnumerator.CheckTarget`: a DNS pre-filter (any non-resolving
answer — including a transient error, whose `Exists` is false — skips the
candidate), then HTTP status classification. -/
def checkTarget (env : NetworkEnv) (t : CloudTarget) : Option CloudAssetResult :=
  let base : CloudAssetResult :=
    { url := t.url, provider := t.service.provider, serviceType := t.service.serviceType,
      region := t.region, severity := t.service.severity }
  let dnsResult := env.dns (targetHostname t.url)
  if !dnsResult.found then none
  else
    match env.http t.url with
    | .error e => some { base with error := e }
    | .ok (status, _) =>
      let r := { base with status := status }
      if status = 200 ∨ status = 201 ∨ status = 202 ∨ status = 204 then
        some { r with accessible := true }
      else if status = 301 ∨ status = 302 ∨ status = 307 ∨ status = 308 then
        some { r with accessible := true }
      else if status = 401 ∨ status = 403 then
        some { r with accessible := false }
      else if status = 404 then none
      else some { r with accessible := false }

/-- The forwarding filter of the full-recon engine's catalog workers
(`FullCloudRecon.ScanAll`): a result reaches the aggregator only when it
is non-nil **and** its status is 200, 403 or 401. -/
def engineForwards (r : Option CloudAssetResult) : Bool :=
  match r with
  | none => false
  | some x => x.status == 200 || x.status == 403 || x.status == 401

/-- The Finding shape `CheckTarget` builds for a classified status. -/
def mkCatalogResult (t : CloudTarget) (st : Nat) (acc : Bool) : CloudAssetResult :=
  { url := t.url, provider := t.service.provider, serviceType := t.service.serviceType,
    region := t.region, status := st, severity := t.service.severity, accessible := acc }

/-- **C5** (amended): with a positive DNS pre-filter, `CheckTarget`
classifies exactly as specified (200/201/202/204/301/302/307/308 →
accessible, 401/403 → exists-but-protected, 404 → discarded), but the
full-recon engine forwards the resulting Finding to the aggregator only
when its status is 200, 401 or 403 — the other accessible statuses are
classified and then dropped by the engine's filter. -/
theorem catalog_classification (env : NetworkEnv) (t : CloudTarget) (st : Nat) (sz : Int)
    (hdns : (env.dns (targetHostname t.url)).found = true)
    (hhttp : env.http t.url = .ok (st, sz)) :
    (st ∈ [200, 201, 202, 204, 301, 302, 307, 308] →
      (checkTarget env t).map (fun r => r.accessible) = some true
      ∧ (checkTarget env t).map (fun r => r.status) = some st)
    ∧ ((st = 401 ∨ st = 403) →
      (checkTarget env t).map (fun r => r.accessible) = some false
      ∧ (checkTarget env t).map (fun r => r.status) = some st)
    ∧ (st = 404 → checkTarget env t = none)
    ∧ engineForwards (checkTarget env t)
        = (st == 200 || st == 403 || st == 401) := by
  have hct : checkTarget env t =
      (if st = 200 ∨ st = 201 ∨ st = 202 ∨ st = 204 then some (mkCatalogResult t st true)
      else if st = 301 ∨ st = 302 ∨ st = 307 ∨ st = 308 then some (mkCatalogResult t st true)
      else if st = 401 ∨ st = 403 then some (mkCatalogResult t st false)
      else if st = 404 then none
      else some (mkCatalogResult t st false)) := by
    simp only [checkTarget, hdns, hhttp]
    rfl
  refine ⟨?_, ?_, ?_, ?_⟩
  · intro hmem
    fin_cases hmem <;> simp [hct, mkCatalogResult]
  · intro hmem
    rcases hmem with h | h <;> subst h <;> simp [hct, mkCatalogResult]
  · intro h404
    subst h404
    simp [hct]
  · rw [hct]
    split_ifs with h1 h2 h3 h4 <;> simp_all [engineForwards, mkCatalogResult]

/-- A network where every host resolves and every HTTP probe answers 201
(Created) — a status `CheckTarget` classifies as accessible but the
engine's forwarding filter drops. -/
def envPos201 : NetworkEnv where
  dns := dnsYes
  http := fun _ => .ok (201, 0)
  body := fun _ => .error "no body"
  headRegion := fun _ => .error "no head"
  xmlS3 := fun _ => none
  xmlAzure := fun _ => none

/-- A concrete catalog target. -/
def demoService : CloudService where
  provider := "AWS"
  serviceType := "API Gateway"
  domainPattern := "\x7bkeyword\x7d.example"
  severity := "HIGH"

/-- A concrete catalog target over `demoService`. -/
def demoTarget : CloudTarget where
  url := "https://api-acme.example"
  service := demoService
  region := ""

/-- Counterexample to C5 as stated: on status 201 the verifier classifies
the target as accessible, yet the full-recon engine does not report the
Finding to the aggregator (it forwards only 200/401/403). -/
theorem catalog_classification_counterexample :
    (envPos201.dns "api-acme.example").found = true
    ∧ envPos201.http "https://api-acme.example" = .ok (201, 0)
    ∧ (checkTarget envPos201 demoTarget).map (fun r => r.accessible) = some true
    ∧ (checkTarget envPos201 demoTarget).map (fun r => r.status) = some 201
    ∧ engineForwards (checkTarget envPos201 demoTarget) = false := by
  decide

/-- Witness for the amended classification theorem at the concrete 201
network: accessible but not forwarded. -/
theorem catalog_classification_witness :
    ((201 : Nat) ∈ [200, 201, 202, 204, 301, 302, 307, 308]
      ∧ (checkTarget envPos201 demoTarget).map (fun r => r.accessible) = some true
      ∧ (checkTarget envPos201 demoTarget).map (fun r => r.status) = some 201)
    ∧ engineForwards (checkTarget envPos201 demoTarget) = false := by
  have h := catalog_classification envPos201 demoTarget 201 0 (by decide) (by decide)
  refine ⟨⟨by decide, (h.1 (by decide)).1, (h.1 (by decide)).2⟩, ?_⟩
  rw [h.2.2.2]
  decide

/-! ## Orchestration engines (`pkg/engine/omnistore.go`, full-recon
engine)

The catalog phase of `FullCloudRecon.ScanAll` builds
`allKeywords := append([]string{keyword}, mutations...)` and feeds
`allKeywords[:min(len(allKeywords), 50)]` to the catalog target
generator. -/

/-- The keyword slice fed to `GenerateAllTargets` in the catalog phase. -/
def catalogKeywords (keyword : String) (mutations : List String) : List String :=
  let allKeywords := keyword :: mutations
  allKeywords.take (min allKeywords.length 50)

/-- Modelled from the spec: the spec's phase-two keyword set, "every
catalog entry × (keyword ∪ first 50 mutations)" — the seed keyword plus
the first 50 generated mutations. -/
def catalogKeywordsSpec (keyword : String) (mutations : List String) : List String :=
  keyword :: mutations.take 50

/-- A 60-entry mutation list for the engine-slicing counterexample. -/
def muts60 : List String := (List.range 60).map fun i => "m" ++ toString i

/-- Counterexample to C4 as stated: with at least 50 mutations, the slice
`allKeywords[:50]` holds the keyword plus only the first **49**
mutations; the 50th mutation (index 49) required by the claim is not fed
to the catalog generator. -/
theorem catalog_keywords_counterexample :
    muts60.length ≥ 50
    ∧ catalogKeywords "acme" muts60 ≠ catalogKeywordsSpec "acme" muts60
    ∧ "m49" ∈ catalogKeywordsSpec "acme" muts60
    ∧ "m49" ∉ catalogKeywords "acme" muts60 := by
  decide

/-- **C4** (amended): for a run whose mutation list has at least 49
entries, the keyword set fed to the catalog target generator is the seed
keyword plus the first **49** generated mutations (50 keywords in
total). -/
theorem catalog_keywords_slice (keyword : String) (mutations : List String)
    (h : 49 ≤ mutations.length) :
    catalogKeywords keyword mutations = keyword :: mutations.take 49 := by
  simp only [catalogKeywords]
  have hmin : min (keyword :: mutations).length 50 = 50 := by
    simp only [List.length_cons]
    omega
  rw [hmin]
  rfl

/-- Witness for the slicing theorem on the concrete 60-entry list. -/
theorem catalog_keywords_slice_witness :
    catalogKeywords "acme" muts60 = "acme" :: muts60.take 49 :=
  catalog_keywords_slice "acme" muts60 (by decide)

/-! ### Run statistics (`checked` / `found`)

Both engines hold two `atomic.Int64` counters.  Every worker iteration
calls the provider's check and then runs `checked.Add(1)` exactly once,
whatever the outcome; the aggregator goroutine runs `found.Add(1)` once
per result it drains; no other writes to the counters exist, so a whole
run — under any interleaving of workers and the aggregator — is a trace
of these two atomic events. -/

/-- The run-statistics counters (`OmniStore.checked` / `OmniStore.found`,
and the same pair on `FullCloudRecon`). -/
structure ScanStats where
  checked : Nat
  found : Nat
deriving DecidableEq

/-- One atomic counter event: a verification attempt (with `emitted`
recording whether the worker pushed a result to the stream) or the
aggregator consuming one result. -/
inductive ScanEvent where
  | check (emitted : Bool)
  | report
deriving DecidableEq

/-- The effect of one event on the counters: `checked.Add(1)` for an
attempt — independently of its outcome — and `found.Add(1)` for a
delivered result. -/
def applyEvent (s : ScanStats) : ScanEvent → ScanStats
  | .check _ => { s with checked := s.checked + 1 }
  | .report => { s with found := s.found + 1 }

/-- A run is the fold of its event trace. -/
def runTrace (s : ScanStats) (t : List ScanEvent) : ScanStats := t.foldl applyEvent s

def countChecks (t : List ScanEvent) : Nat :=
  (t.filter fun e => match e with | .check _ => true | .report => false).length

def countReports (t : List ScanEvent) : Nat :=
  (t.filter fun e => match e with | .report => true | .check _ => false).length

/-- One iteration of an `OmniStore.Scan` storage worker: the provider's
`Check(ctx, url)` outcome is observed, `checked` is incremented exactly
once, and a result is emitted only when `err == nil && result != nil`. -/
def omniWorkerIter (outcome : Except String (Option Result)) : ScanEvent :=
  .check (match outcome with | .ok (some _) => true | _ => false)

/-- One iteration of a full-recon catalog worker: `checked` is
incremented exactly once and the result is forwarded only through the
engine's status filter. -/
def catalogWorkerIter (r : Option CloudAssetResult) : ScanEvent :=
  .check (engineForwards r)

theorem runTrace_counts :
    ∀ (t : List ScanEvent) (s : ScanStats),
      (runTrace s t).checked = s.checked + countChecks t
      ∧ (runTrace s t).found = s.found + countReports t := by
  intro t
  induction t with
  | nil => intro s; simp [runTrace, countChecks, countReports]
  | cons e rest ih =>
    intro s
    cases e with
    | check emitted =>
      have h := ih (applyEvent s (.check emitted))
      simp only [runTrace, List.foldl_cons] at h ⊢
      simp [countChecks, countReports, applyEvent, List.filter] at h ⊢
      omega
    | report =>
      have h := ih (applyEvent s .report)
      simp only [runTrace, List.foldl_cons] at h ⊢
      simp [countChecks, countReports, applyEvent, List.filter] at h ⊢
      omega

/-- **C7**: throughout a run, `checked` and `found` are monotonically
non-decreasing under every interleaving of worker and aggregator events
and are never reset (no event decreases them); `checked` grows by exactly
one per verification attempt regardless of outcome — both for the storage
workers and the catalog workers — and `found` grows by exactly one per
Finding delivered to the aggregator. -/
theorem run_statistics_counters :
    (∀ (s : ScanStats) (e : ScanEvent),
      s.checked ≤ (applyEvent s e).checked ∧ s.found ≤ (applyEvent s e).found)
    ∧ (∀ (s : ScanStats) (t : List ScanEvent),
        s.checked ≤ (runTrace s t).checked ∧ s.found ≤ (runTrace s t).found)
    ∧ (∀ (s : ScanStats) (t : List ScanEvent),
        (runTrace s t).checked = s.checked + countChecks t
        ∧ (runTrace s t).found = s.found + countReports t)
    ∧ (∀ (outcome : Except String (Option Result)) (s : ScanStats),
        (applyEvent s (omniWorkerIter outcome)).checked = s.checked + 1
        ∧ (applyEvent s (omniWorkerIter outcome)).found = s.found)
    ∧ (∀ (r : Option CloudAssetResult) (s : ScanStats),
        (applyEvent s (catalogWorkerIter r)).checked = s.checked + 1
        ∧ (applyEvent s (catalogWorkerIter r)).found = s.found)
    ∧ (∀ s : ScanStats, (applyEvent s .report).found = s.found + 1
        ∧ (applyEvent s .report).checked = s.checked) := by
  refine ⟨?_, ?_, ?_, ?_, ?_, ?_⟩
  · intro s e
    cases e <;> simp [applyEvent]
  · intro s t
    obtain ⟨h1, h2⟩ := runTrace_counts t s
    omega
  · intro s t
    exact runTrace_counts t s
  · intro outcome s
    exact ⟨rfl, rfl⟩
  · intro r s
    exact ⟨rfl, rfl⟩
  · intro s
    exact ⟨rfl, rfl⟩

end Skyscan
